import Mathlib

/-!
Verification development for the agentic email/calendar assistant.

The definitions below are shallow embeddings of the repository's core logic:
  * `find_free_time`        — backend/google/gcal_client.py, free-slot sweep
  * `replySubject`          — backend/google/gmail_client.py, reply subject rule
  * string helpers modelling the Python primitives the code relies on.

Instants are modelled as `Int` (minutes or seconds since an epoch); the source
uses `datetime` values, whose ordering and addition of a duration are the only
operations the algorithms use, so a linearly ordered additive model is faithful.
-/

/-! ## Python string primitives -/

/-- Python `str.strip()` on a list of characters: drop whitespace at both ends. -/
def pyStripList (cs : List Char) : List Char :=
  ((cs.dropWhile Char.isWhitespace).reverse.dropWhile Char.isWhitespace).reverse

/-- Python `str.strip()`. -/
def pyStrip (s : String) : String :=
  String.mk (pyStripList s.data)

/-- Python `str.strip(' "')`: drop spaces and double quotes at both ends. -/
def pyStripSpaceQuote (s : String) : String :=
  let p := fun c => c = ' ' ∨ c = '"'
  String.mk (((s.data.dropWhile (fun c => decide (p c))).reverse.dropWhile
    (fun c => decide (p c))).reverse)

/-- Python `str.lower()` restricted to the ASCII range (sufficient for the
subject-prefix check, which only inspects the characters of "re:"). -/
def pyLower (s : String) : String :=
  String.mk (s.data.map Char.toLower)

/-- Python `str.startswith(pre)`. -/
def pyStartsWith (s pre : String) : Bool :=
  pre.data.isPrefixOf s.data

/-- Sequential `+=` concatenation of a list of strings, in order. -/
def strConcat : List String → String
  | [] => ""
  | s :: rest => s ++ strConcat rest

/-! ## Free-slot calculator — gcal_client.find_free_time

The provider's freebusy query (an external call) supplies `busy_slots`; the
sweep below is the in-repo logic of `find_free_time` (gcal_client.py:325-335),
translated with the loop state `(free_slots, window_start)` made explicit. -/

/-- One iteration of the `for slot in busy_slots` loop of `find_free_time`:
emit a slot when the cursor plus the duration fits before the busy start, then
advance the cursor to the max of itself and the busy end. -/
def ffStep (d : Int) (acc : List (Int × Int) × Int) (slot : Int × Int) :
    List (Int × Int) × Int :=
  let free := if acc.2 + d ≤ slot.1 then acc.1 ++ [(acc.2, acc.2 + d)] else acc.1
  (free, max acc.2 slot.2)

/-- `find_free_time` (gcal_client.py:304-335) with the busy list abstracted as
input: sweep the busy intervals, then emit one trailing slot if it fits before
`end_date`. -/
def find_free_time (d start_date end_date : Int) (busy_slots : List (Int × Int)) :
    List (Int × Int) :=
  let st := busy_slots.foldl (ffStep d) ([], start_date)
  if st.2 + d ≤ end_date then st.1 ++ [(st.2, st.2 + d)] else st.1

/-- The sweep as the specification states it: a cursor walks the busy list,
emitting `[cursor, cursor+duration)` before each busy interval it fits in front
of, advancing via `max`, with one final trailing slot if it fits. -/
def sweepSpec (cursor d windowEnd : Int) : List (Int × Int) → List (Int × Int)
  | [] => if cursor + d ≤ windowEnd then [(cursor, cursor + d)] else []
  | (s, e) :: rest =>
      (if cursor + d ≤ s then [(cursor, cursor + d)] else []) ++
        sweepSpec (max cursor e) d windowEnd rest

/-! ## Reply-subject rule — gmail_client.create_draft_from_email:296-300 -/

/-- The reply-subject rule: prepend "Re: " unless the lowercased subject
already starts with "re:". -/
def replySubject (subject : String) : String :=
  if ¬ pyStartsWith (pyLower subject) "re:" then "Re: " ++ subject else subject

/-! ## Regular-expression models — gmail_client address parsing

`extract_email_only` uses `re.search` with pattern `<(.+@.+)>`;
`parse_email_address` uses `re.match` with pattern `^(.*?)\s*<(.+@.+)>$`.
The models below reproduce the leftmost-start, greedy-with-backtracking
semantics of those two patterns, including the fact that `.` does not match a
newline. -/

/-- `t[lo..hi)` is nonempty and contains no newline (what a `.+` segment of the
patterns may consume). -/
def segOk (t : List Char) (lo hi : Nat) : Bool :=
  decide (lo < hi) && ((t.drop lo).take (hi - lo)).all (fun c => decide (c ≠ '\n'))

/-- Greedy match of `(.+@.+)>` against `t` (the text following a `<`): the
first `.+` backtracks from the right, so the match uses the rightmost viable
`@`, and for it the rightmost viable `>`; the returned group is everything
before that `>`. -/
def matchAfterLt (t : List Char) : Option (List Char) :=
  let n := t.length
  let goodK := fun (j k : Nat) => (t.get? k == some '>') && segOk t (j + 1) k
  let goodJ := fun (j : Nat) =>
    (t.get? j == some '@') && segOk t 0 j && ((List.range n).reverse.find? (goodK j)).isSome
  match (List.range n).reverse.find? goodJ with
  | none => none
  | some j =>
    match (List.range n).reverse.find? (goodK j) with
    | none => none
    | some k => some (t.take k)

/-- `re.search(r'<(.+@.+)>', s)`: try each start position from the left; a
match starts at a `<` whose following text admits the greedy match. -/
def reSearchAngle (s : String) : Option String :=
  let cs := s.data
  match (List.range cs.length).find?
      (fun i => (cs.get? i == some '<') && (matchAfterLt (cs.drop (i + 1))).isSome) with
  | none => none
  | some i => (matchAfterLt (cs.drop (i + 1))).map String.mk

/-- `extract_email_only` (gmail_client.py:430-438): the bracketed address when
the pattern matches, the input unchanged otherwise. -/
def extract_email_only (s : String) : String :=
  match reSearchAngle s with
  | some inner => inner
  | none => s

/-- Index of the first non-whitespace character at or after `a` (where the
`\s*` of the anchored pattern must stop for `<` to match). -/
def firstNonWs (cs : List Char) (a : Nat) : Nat :=
  a + ((cs.drop a).takeWhile Char.isWhitespace).length

/-- `re.match(r'^(.*?)\s*<(.+@.+)>$', cs)` succeeds with a lazy group-1 of
length `a` iff: the first `a` characters contain no newline, the whitespace
run after them is immediately followed by `<`, the string ends in `>`, and the
bracketed text contains an `@` splitting it into two nonempty newline-free
segments. -/
def matchCond (cs : List Char) (a : Nat) : Bool :=
  let n := cs.length
  let r := firstNonWs cs a
  (cs.take a).all (fun c => decide (c ≠ '\n')) &&
  (cs.get? r == some '<') &&
  (cs.get? (n - 1) == some '>') &&
  (List.range n).any (fun j =>
    (cs.get? j == some '@') && segOk cs (r + 1) j && segOk cs (j + 1) (n - 1))

/-- The anchored name/address match: the lazy `(.*?)` takes the smallest
viable length `a`; group 1 is `cs[0..a)`, group 2 the text between the `<`
and the final `>`. -/
def matchNameAddr (cs : List Char) : Option (List Char × List Char) :=
  match (List.range (cs.length + 1)).find? (matchCond cs) with
  | none => none
  | some a =>
    let r := firstNonWs cs a
    some (cs.take a, (cs.drop (r + 1)).take (cs.length - 1 - (r + 1)))

/-- `parse_email_address` (gmail_client.py:440-455): empty input gives
`("", "")`; a match on the stripped input gives the name stripped of spaces
and double quotes together with the stripped address; otherwise the stripped
input is the address and the name is empty. -/
def parse_email_address (s : String) : String × String :=
  if s = "" then ("", "")
  else
    match matchNameAddr (pyStrip s).data with
    | some (nm, ad) => (pyStripSpaceQuote (String.mk nm), pyStrip (String.mk ad))
    | none => ("", pyStrip s)

/-- The address-parsing rule exactly as the specification words it: apply the
pattern "optional display name, then an address inside angle brackets"; if
matched return the trimmed name and address, otherwise `("", trimmed raw)`. -/
def parseAddressSpec (s : String) : String × String :=
  match matchNameAddr (pyStrip s).data with
  | some (nm, ad) => (pyStripSpaceQuote (String.mk nm), pyStrip (String.mk ad))
  | none => ("", pyStrip s)

/-- `parse_email_list` (gmail_client.py:457-464): split on commas, strip each
entry, drop empties, preserve order. -/
def parse_email_list (s : String) : List String :=
  if s = "" then []
  else ((s.split (fun c => c = ',')).map pyStrip).filter (fun e => e ≠ "")

/-! ## Lemmas about the free-slot sweep -/

theorem foldl_ffStep_acc (d : Int) (busy : List (Int × Int))
    (free : List (Int × Int)) (c : Int) :
    busy.foldl (ffStep d) (free, c) =
      (free ++ (busy.foldl (ffStep d) ([], c)).1, (busy.foldl (ffStep d) ([], c)).2) := by
  induction busy generalizing free c with
  | nil => simp
  | cons hd tl ih =>
    simp only [List.foldl_cons, ffStep]
    by_cases h : c + d ≤ hd.1
    · simp only [if_pos h, List.nil_append]
      rw [ih (free ++ [(c, c + d)]), ih [(c, c + d)]]
      simp [List.append_assoc]
    · simp only [if_neg h, List.nil_append]
      rw [ih]

theorem find_free_time_eq_sweepSpec (d ws we : Int) (busy : List (Int × Int)) :
    find_free_time d ws we busy = sweepSpec ws d we busy := by
  induction busy generalizing ws with
  | nil => simp [find_free_time, sweepSpec]
  | cons hd tl ih =>
    obtain ⟨s, e⟩ := hd
    simp only [find_free_time, sweepSpec, List.foldl_cons, ffStep]
    by_cases h : ws + d ≤ s
    · simp only [if_pos h]
      rw [foldl_ffStep_acc]
      rw [← ih (max ws e)]
      simp only [find_free_time]
      by_cases h2 : (tl.foldl (ffStep d) ([], max ws e)).2 + d ≤ we
      · simp [if_pos h2]
      · simp [if_neg h2]
    · simp only [if_neg h]
      rw [← ih (max ws e)]
      simp [find_free_time]

/-- The cursor component of the sweep state only ever advances via `max`. -/
theorem ffStep_cursor_mono (d : Int) (busy : List (Int × Int))
    (free : List (Int × Int)) (c : Int) :
    c ≤ (busy.foldl (ffStep d) (free, c)).2 := by
  induction busy generalizing free c with
  | nil => simp
  | cons hd tl ih =>
    simp only [List.foldl_cons, ffStep]
    exact le_trans (le_max_left c hd.2) (ih _ _)

theorem sweepSpec_start_ge (cursor d we : Int) (busy : List (Int × Int)) :
    ∀ p ∈ sweepSpec cursor d we busy, cursor ≤ p.1 ∧ p.2 = p.1 + d := by
  induction busy generalizing cursor with
  | nil =>
    intro p hp
    simp only [sweepSpec] at hp
    split at hp
    · simp at hp; simp [hp]
    · simp at hp
  | cons hd tl ih =>
    obtain ⟨s, e⟩ := hd
    intro p hp
    simp only [sweepSpec, List.mem_append] at hp
    rcases hp with hp | hp
    · split at hp
      · simp at hp; simp [hp]
      · simp at hp
    · have := ih (max cursor e) p hp
      exact ⟨le_trans (le_max_left cursor e) this.1, this.2⟩

/-- Slots produced by the sweep are disjoint from every busy interval, when the
busy list is sorted ascending by start. -/
theorem sweepSpec_disjoint (d we : Int) (busy : List (Int × Int)) :
    ∀ cursor, List.Pairwise (fun a b : Int × Int => a.1 ≤ b.1) busy →
      ∀ p ∈ sweepSpec cursor d we busy, ∀ b ∈ busy, p.2 ≤ b.1 ∨ b.2 ≤ p.1 := by
  induction busy with
  | nil => intro cursor _ p _ b hb; simp at hb
  | cons hd tl ih =>
    obtain ⟨s, e⟩ := hd
    intro cursor hsort p hp b hb
    have hsort' := (List.pairwise_cons.mp hsort).2
    have hhead := (List.pairwise_cons.mp hsort).1
    simp only [sweepSpec, List.mem_append] at hp
    rcases hp with hp | hp
    · by_cases h : cursor + d ≤ s
      · simp [if_pos h] at hp
        subst hp
        simp only [List.mem_cons] at hb
        rcases hb with hb | hb
        · left; rw [hb]; exact h
        · left
          have : s ≤ b.1 := hhead b hb
          simpa using le_trans h this
      · simp [if_neg h] at hp
    · have hstart := (sweepSpec_start_ge (max cursor e) d we tl p hp).1
      simp only [List.mem_cons] at hb
      rcases hb with hb | hb
      · right
        have : e ≤ max cursor e := le_max_right cursor e
        rw [hb]
        exact le_trans this hstart
      · exact ih (max cursor e) hsort' p hp b hb

/-- Every slot the sweep emits fits below `we`, provided every busy interval
starts at or before `we`. -/
theorem sweepSpec_fits (d we : Int) :
    ∀ (busy : List (Int × Int)) (cursor : Int), (∀ b ∈ busy, b.1 ≤ we) →
      ∀ p ∈ sweepSpec cursor d we busy, p.1 + d ≤ we := by
  intro busy
  induction busy with
  | nil =>
    intro cursor _ p hp
    simp only [sweepSpec] at hp
    split at hp
    · rename_i hc
      simp at hp
      subst hp
      simpa using hc
    · simp at hp
  | cons hd tl ih =>
    obtain ⟨s, e⟩ := hd
    intro cursor hin p hp
    simp only [sweepSpec, List.mem_append] at hp
    rcases hp with hp | hp
    · split at hp
      · rename_i hc
        simp at hp
        subst hp
        have hs : s ≤ we := by simpa using hin (s, e) (by simp)
        simp
        omega
      · simp at hp
    · exact ih (max cursor e) (fun b hb => hin b (List.mem_cons_of_mem _ hb)) p hp

/-! ## Claim theorems: free-slot calculator -/

/-- C1. Free-slot computation: for every window, duration, and busy list sorted
ascending by start, `find_free_time` returns exactly the slots of the single
forward sweep described by the specification: a cursor starts at the window
start, emits `[cursor, cursor+duration)` before each busy interval it fits in
front of, advances via `max` to the busy end, and emits one trailing slot iff
it fits before the window end. -/
theorem find_free_time_is_forward_sweep (d ws we : Int) (busy : List (Int × Int))
    (hsorted : List.Pairwise (fun a b : Int × Int => a.1 ≤ b.1) busy) :
    find_free_time d ws we busy = sweepSpec ws d we busy :=
  find_free_time_eq_sweepSpec d ws we busy

/-- Witness for C1: window 09:00-17:00 (minutes), busy [10:00,11:00), duration
60: the sweep yields [09:00,10:00) and [11:00,12:00). -/
theorem find_free_time_is_forward_sweep_witness :
    List.Pairwise (fun a b : Int × Int => a.1 ≤ b.1) [((600 : Int), (660 : Int))] ∧
      find_free_time 60 540 1020 [(600, 660)] = sweepSpec 540 60 1020 [(600, 660)] ∧
      find_free_time 60 540 1020 [(600, 660)] = [(540, 600), (660, 720)] :=
  ⟨by decide,
   find_free_time_is_forward_sweep 60 540 1020 [(600, 660)] (by decide),
   by decide⟩

/-- C9. Free-slot edge cases and cursor monotonicity: an empty busy list yields
at most one slot (the earliest fitting slot of the window); a duration longer
than the whole window yields no slots (busy intervals lying inside the window);
the cursor never decreases along the sweep; and with the sorted-by-start
precondition every produced slot is disjoint from every busy interval. -/
theorem find_free_time_edge_cases (d ws we : Int) (busy : List (Int × Int)) :
    (find_free_time d ws we [] = if ws + d ≤ we then [(ws, ws + d)] else []) ∧
    (we - ws < d → (∀ b ∈ busy, b.1 ≤ we) → find_free_time d ws we busy = []) ∧
    (∀ l₁ l₂ : List (Int × Int),
      ws ≤ (l₁.foldl (ffStep d) ([], ws)).2 ∧
      (l₁.foldl (ffStep d) ([], ws)).2 ≤ ((l₁ ++ l₂).foldl (ffStep d) ([], ws)).2) ∧
    (List.Pairwise (fun a b : Int × Int => a.1 ≤ b.1) busy →
      ∀ p ∈ find_free_time d ws we busy, ∀ b ∈ busy, p.2 ≤ b.1 ∨ b.2 ≤ p.1) := by
  refine ⟨by simp [find_free_time], ?_, ?_, ?_⟩
  · intro hlong hin
    rw [find_free_time_eq_sweepSpec]
    by_contra hne
    obtain ⟨p, hp⟩ := List.exists_mem_of_ne_nil _ hne
    have hge := (sweepSpec_start_ge ws d we busy p hp).1
    have hfit := sweepSpec_fits d we busy ws hin p hp
    omega
  · intro l₁ l₂
    constructor
    · exact ffStep_cursor_mono d l₁ [] ws
    · rw [List.foldl_append]
      obtain ⟨fr, c⟩ := l₁.foldl (ffStep d) ([], ws)
      exact ffStep_cursor_mono d l₂ fr c
  · intro hsort p hp b hb
    rw [find_free_time_eq_sweepSpec] at hp
    exact sweepSpec_disjoint d we busy ws hsort p hp b hb

/-- Witness for C9: window of 480 minutes, duration 481 with a contained busy
interval gives no slots; the disjointness clause applies to the 60-minute case. -/
theorem find_free_time_edge_cases_witness :
    ((1020 : Int) - 540 < 481 ∧ (∀ b ∈ [((600 : Int), (660 : Int))], b.1 ≤ 1020) ∧
      find_free_time 481 540 1020 [(600, 660)] = []) ∧
    (List.Pairwise (fun a b : Int × Int => a.1 ≤ b.1) [((600 : Int), (660 : Int))] ∧
      ∀ p ∈ find_free_time 60 540 1020 [(600, 660)],
        ∀ b ∈ [((600 : Int), (660 : Int))], p.2 ≤ b.1 ∨ b.2 ≤ p.1) :=
  ⟨⟨by decide, by decide,
    (find_free_time_edge_cases 481 540 1020 [(600, 660)]).2.1 (by decide) (by decide)⟩,
   ⟨by decide,
    (find_free_time_edge_cases 60 540 1020 [(600, 660)]).2.2.2 (by decide)⟩⟩

/-! ## Claim theorem: reply-subject prefixing -/

theorem pyLower_append (a b : String) : pyLower (a ++ b) = pyLower a ++ pyLower b := by
  simp only [pyLower, String.data_append, List.map_append]
  rfl

theorem isPrefixOf_append_self (l₁ l₂ : List Char) : l₁.isPrefixOf (l₁ ++ l₂) = true := by
  induction l₁ with
  | nil => simp [List.isPrefixOf]
  | cons a t ih => simp [List.isPrefixOf, ih]

/-- C10. Reply-subject prefixing: the outgoing subject is "Re: " prepended to
the subject unless the lowercased subject already starts with "re:", in which
case it is unchanged; the transformation is idempotent. -/
theorem replySubject_spec (s : String) :
    (pyStartsWith (pyLower s) "re:" = true → replySubject s = s) ∧
    (pyStartsWith (pyLower s) "re:" = false → replySubject s = "Re: " ++ s) ∧
    replySubject (replySubject s) = replySubject s := by
  refine ⟨fun h => by simp [replySubject, h], fun h => by simp [replySubject, h], ?_⟩
  by_cases h : pyStartsWith (pyLower s) "re:"
  · simp [replySubject, h]
  · have h1 : replySubject s = "Re: " ++ s := by
      simp [replySubject, h]
    rw [h1]
    have h2 : pyStartsWith (pyLower ("Re: " ++ s)) "re:" = true := by
      rw [pyLower_append]
      have e1 : pyLower "Re: " = "re: " := by decide
      rw [e1]
      show ("re:".data.isPrefixOf ("re: " ++ pyLower s).data) = true
      rw [String.data_append]
      have e2 : "re: ".data = "re:".data ++ [' '] := rfl
      rw [e2, List.append_assoc]
      exact isPrefixOf_append_self _ _
    simp [replySubject, h2]

/-- Witness for C10: "Hello" gains the prefix once and is then a fixed point. -/
theorem replySubject_spec_witness :
    pyStartsWith (pyLower "Hello") "re:" = false ∧
      replySubject "Hello" = "Re: Hello" ∧
      replySubject (replySubject "Hello") = replySubject "Hello" :=
  ⟨by decide, (replySubject_spec "Hello").2.1 (by decide),
    (replySubject_spec "Hello").2.2⟩

/-! ## Message model — backend/google/emails.py -/

/-- The `Email` data model (emails.py), with the fields and defaults of its
constructor. Dates are optional instants; `headers` is the header mapping in
insertion order (last occurrence wins, enforced at construction). The opaque
`raw_message` back-reference is not modelled. -/
structure Email where
  id : String := ""
  thread_id : String := ""
  message_id : String := ""
  subject : String := ""
  from_email : String := ""
  from_name : String := ""
  from_address : String := ""
  «to» : List String := []
  cc : List String := []
  bcc : List String := []
  reply_to : String := ""
  date : String := ""
  received_date : Option Int := none
  sent_date : Option Int := none
  body_text : String := ""
  body_html : String := ""
  snippet : String := ""
  size_estimate : Int := 0
  internal_date : String := ""
  headers : List (String × String) := []
  draft : String := ""
  draft_id : String := ""
  ready_to_send : Bool := false
  status : String := ""
deriving DecidableEq, Repr

/-! ## Reply-all recipient resolution — gmail_client.create_draft_from_email

The provider calls (profile lookup supplying `user_email`, the drafts.create
round trip) are external; the embedding returns either the no-recipients error
the function returns early, or the draft-create request it would hand to the
provider. -/

/-- The payload `create_draft_from_email` builds: recipients after cleaning,
reply-all seeding and self-exclusion, reply subject, threading headers, body
and thread id. -/
structure DraftRequest where
  «to» : List String
  cc : List String
  bcc : List String
  subject : String
  in_reply_to : Option String
  references : Option String
  body : String
  thread_id : String
deriving DecidableEq, Repr

/-- Outcome of the pure part of `create_draft_from_email`: the early
no-recipients error, or the request passed to the provider's create call. -/
inductive CreateDraftStep where
  | noRecipients (msg : String)
  | request (r : DraftRequest)
deriving DecidableEq, Repr

/-- `create_draft_from_email` (gmail_client.py:250-325) up to the provider
call: clean the three recipient lists to bare addresses, append the sender to
`to`, drop the user's own address from all three, fail if `to` is empty, else
build the outgoing message. -/
def create_draft_from_email (user_email : String) (email : Email) : CreateDraftStep :=
  let orig_to := email.«to».map extract_email_only
  let orig_cc := email.cc.map extract_email_only
  let orig_bcc := email.bcc.map extract_email_only
  let to_send := (orig_to ++ [email.from_address]).filter (fun x => x ≠ user_email)
  let cc_send := orig_cc.filter (fun x => x ≠ user_email)
  let bcc_send := orig_bcc.filter (fun x => x ≠ user_email)
  if to_send = [] then .noRecipients "ERROR CREATING DRAFT: No recipients found"
  else .request {
    «to» := to_send
    cc := cc_send
    bcc := bcc_send
    subject := replySubject email.subject
    in_reply_to := if email.message_id ≠ "" then some email.message_id else none
    references := if email.message_id ≠ "" then some email.message_id else none
    body := email.draft
    thread_id := email.thread_id }

/-! ## Lemmas: address parsing -/

theorem mem_of_mem_pyStripList {c : Char} {cs : List Char}
    (h : c ∈ pyStripList cs) : c ∈ cs := by
  simp only [pyStripList, List.mem_reverse] at h
  have h1 : c ∈ (cs.dropWhile Char.isWhitespace).reverse :=
    (List.dropWhile_sublist _).subset h
  rw [List.mem_reverse] at h1
  exact (List.dropWhile_sublist _).subset h1

theorem matchNameAddr_eq_none {cs : List Char} (h : '<' ∉ cs) :
    matchNameAddr cs = none := by
  have hfind : (List.range (cs.length + 1)).find? (matchCond cs) = none := by
    rw [List.find?_eq_none]
    intro a _ hc
    simp only [matchCond, Bool.and_assoc, Bool.and_eq_true, beq_iff_eq] at hc
    exact h (List.get?_mem hc.2.1)
  simp only [matchNameAddr, hfind]

theorem parse_email_address_eq_parseAddressSpec (s : String) :
    parse_email_address s = parseAddressSpec s := by
  by_cases h : s = ""
  · subst h; decide
  · simp only [parse_email_address, parseAddressSpec, if_neg h]

/-! ## Claim theorem: address parsing (C8) -/

/-- C8. Address parsing: the parser realizes exactly the specified rule (match
the "name then bracketed address" pattern, returning trimmed name and address
on a match and `("", trimmed raw)` otherwise), and it is idempotent on
already-bare addresses: a string with no `<` and no surrounding whitespace
parses to `("", itself)`, and re-parsing the returned address changes nothing. -/
theorem parse_email_address_contract :
    (∀ s, parse_email_address s = parseAddressSpec s) ∧
    (∀ s, '<' ∉ s.data → pyStrip s = s →
      parse_email_address s = ("", s) ∧
      parse_email_address (parse_email_address s).2 = parse_email_address s) := by
  refine ⟨parse_email_address_eq_parseAddressSpec, fun s hlt hstrip => ?_⟩
  have hbase : parse_email_address s = ("", s) := by
    by_cases h : s = ""
    · subst h; decide
    · have hm : matchNameAddr s.data = none := matchNameAddr_eq_none hlt
      simp only [parse_email_address, if_neg h, hstrip, hm]
  refine ⟨hbase, ?_⟩
  rw [hbase]
  exact hbase

/-- Witness for C8: `parse_email_address "a@b.com" = ("", "a@b.com")` and the
re-parse is a fixed point. -/
theorem parse_email_address_contract_witness :
    ('<' ∉ "a@b.com".data ∧ pyStrip "a@b.com" = "a@b.com") ∧
      parse_email_address "a@b.com" = ("", "a@b.com") ∧
      parse_email_address (parse_email_address "a@b.com").2 =
        parse_email_address "a@b.com" :=
  ⟨⟨by decide, by decide⟩,
   (parse_email_address_contract.2 "a@b.com" (by decide) (by decide)).1,
   (parse_email_address_contract.2 "a@b.com" (by decide) (by decide)).2⟩

/-! ## Claim theorem: reply-all self-exclusion and NoRecipients (C5) -/

/-- C5. Reply-all resolution: whenever the draft-create request is built, none
of its to/cc/bcc lists contains the user's own address; and when the original
to, cc, bcc entries and the sender are all the user's (bare) address, the
resolved `to` list is empty and the function returns the no-recipients error
instead of producing a provider create request. -/
theorem create_draft_self_exclusion (u : String) (email : Email) :
    (∀ r, create_draft_from_email u email = .request r →
      u ∉ r.«to» ∧ u ∉ r.cc ∧ u ∉ r.bcc) ∧
    (extract_email_only u = u →
      (∀ x ∈ email.«to», x = u) → (∀ x ∈ email.cc, x = u) → (∀ x ∈ email.bcc, x = u) →
      email.from_address = u →
      create_draft_from_email u email =
        .noRecipients "ERROR CREATING DRAFT: No recipients found") := by
  constructor
  · intro r hr
    simp only [create_draft_from_email] at hr
    split at hr
    · exact absurd hr (by simp)
    · have hr' := CreateDraftStep.request.inj hr
      subst hr'
      refine ⟨?_, ?_, ?_⟩ <;>
        · intro hmem
          simp only [List.mem_filter, decide_eq_true_eq] at hmem
          exact hmem.2 rfl
  · intro hu hto hcc hbcc hfrom
    have hall : ∀ x ∈ (email.«to».map extract_email_only) ++ [email.from_address], x = u := by
      intro x hx
      rcases List.mem_append.mp hx with hx | hx
      · obtain ⟨y, hy, hxy⟩ := List.mem_map.mp hx
        rw [← hxy, hto y hy, hu]
      · simp at hx
        rw [hx, hfrom]
    have hnil : ((email.«to».map extract_email_only) ++ [email.from_address]).filter
        (fun x => x ≠ u) = [] := by
      rw [List.filter_eq_nil_iff]
      intro a ha
      simp [hall a ha]
    simp [create_draft_from_email, hnil]
    exact ⟨fun a ha => by rw [hto a ha, hu], hfrom⟩

/-- Witness for C5: with every original recipient and the sender equal to the
user's bare address, resolution yields the no-recipients error. -/
theorem create_draft_self_exclusion_witness :
    (extract_email_only "me@x.com" = "me@x.com" ∧
      (∀ x ∈ ["me@x.com"], x = "me@x.com") ∧
      ({ «to» := ["me@x.com"], cc := ["me@x.com"], bcc := ["me@x.com"],
         from_address := "me@x.com" : Email }).from_address = "me@x.com") ∧
    create_draft_from_email "me@x.com"
        { «to» := ["me@x.com"], cc := ["me@x.com"], bcc := ["me@x.com"],
          from_address := "me@x.com" } =
      .noRecipients "ERROR CREATING DRAFT: No recipients found" :=
  ⟨⟨by decide, by decide, rfl⟩,
   (create_draft_self_exclusion "me@x.com"
      { «to» := ["me@x.com"], cc := ["me@x.com"], bcc := ["me@x.com"],
        from_address := "me@x.com" }).2
     (by decide) (by decide) (by decide) (by decide) rfl⟩

/-! ## Base64url decoding — gmail_client.decode_base64

`decode_base64` (gmail_client.py:523-537) pads the input to a multiple of
four, maps the url-safe characters back, calls `base64.b64decode` and decodes
the bytes as UTF-8 with `errors='ignore'`; any decoding error yields "".
The models below reproduce `b64decode`'s default (non-validating) behaviour:
non-alphabet characters are discarded, and decoding fails when the data-
character count is 1 mod 4, or is not a multiple of 4 with no padding. -/

/-- Value of a base64 alphabet character. -/
def b64Val (c : Char) : Option Nat :=
  if 'A' ≤ c ∧ c ≤ 'Z' then some (c.toNat - 65)
  else if 'a' ≤ c ∧ c ≤ 'z' then some (c.toNat - 97 + 26)
  else if '0' ≤ c ∧ c ≤ '9' then some (c.toNat - 48 + 52)
  else if c = '+' then some 62
  else if c = '/' then some 63
  else none

/-- Turn a run of 6-bit values into bytes: full quads give three bytes, a
final pair one byte, a final triple two bytes. -/
def decodeQuads : List Nat → List Nat
  | a :: b :: c :: d :: rest =>
      (a * 4 + b / 16) :: ((b % 16) * 16 + c / 4) :: ((c % 4) * 64 + d) :: decodeQuads rest
  | [a, b] => [a * 4 + b / 16]
  | [a, b, c] => [a * 4 + b / 16, (b % 16) * 16 + c / 4]
  | _ => []

/-- `base64.b64decode` with default options on an already-translated
alphabet: discard foreign characters, stop the data at the first `=`,
fail on impossible lengths, and emit bytes. -/
def b64decodeBytes (cs : List Char) : Option (List Nat) :=
  let kept := cs.filter (fun c => (b64Val c).isSome ∨ c = '=')
  let dataChars := (kept.takeWhile (fun c => c ≠ '=')).filterMap b64Val
  let padPresent := kept.any (fun c => c = '=')
  if dataChars.length % 4 = 1 then none
  else if dataChars.length % 4 ≠ 0 ∧ ¬padPresent then none
  else some (decodeQuads dataChars)

/-- Second continuation byte allowed after a three-byte lead (excludes
overlong encodings and surrogates, as CPython does). -/
def utf8Lead3Ok (b c1 : Nat) : Bool :=
  if b = 0xE0 then decide (0xA0 ≤ c1 ∧ c1 ≤ 0xBF)
  else if b = 0xED then decide (0x80 ≤ c1 ∧ c1 ≤ 0x9F)
  else decide (0x80 ≤ c1 ∧ c1 ≤ 0xBF)

/-- First continuation byte allowed after a four-byte lead. -/
def utf8Lead4Ok (b c1 : Nat) : Bool :=
  if b = 0xF0 then decide (0x90 ≤ c1 ∧ c1 ≤ 0xBF)
  else if b = 0xF4 then decide (0x80 ≤ c1 ∧ c1 ≤ 0x8F)
  else decide (0x80 ≤ c1 ∧ c1 ≤ 0xBF)

/-- A UTF-8 continuation byte. -/
def utf8Cont (b : Nat) : Bool :=
  decide (0x80 ≤ b ∧ b ≤ 0xBF)

/-- Try to read one multi-byte UTF-8 sequence led by `b` with continuation
bytes at the head of `rest`: on success, the number of continuation bytes
consumed and the decoded code point. -/
def utf8Seq (b : Nat) (rest : List Nat) : Option (Nat × Nat) :=
  if 0xC2 ≤ b ∧ b ≤ 0xDF then
    match rest with
    | c1 :: _ =>
      if utf8Cont c1 then some (1, (b % 32) * 64 + c1 % 64) else none
    | _ => none
  else if 0xE0 ≤ b ∧ b ≤ 0xEF then
    match rest with
    | c1 :: c2 :: _ =>
      if utf8Lead3Ok b c1 ∧ utf8Cont c2 then
        some (2, (b % 16) * 4096 + (c1 % 64) * 64 + c2 % 64)
      else none
    | _ => none
  else if 0xF0 ≤ b ∧ b ≤ 0xF4 then
    match rest with
    | c1 :: c2 :: c3 :: _ =>
      if utf8Lead4Ok b c1 ∧ utf8Cont c2 ∧ utf8Cont c3 then
        some (3, (b % 8) * 262144 + (c1 % 64) * 4096 + (c2 % 64) * 64 + c3 % 64)
      else none
    | _ => none
  else none

/-- Worker for UTF-8 decoding with `errors='ignore'`: well-formed sequences
become characters, ill-formed bytes are skipped. Every step consumes at least
one byte, so fuel equal to the byte count is exact. -/
def utf8DecodeIgnoreAux : Nat → List Nat → List Char
  | 0, _ => []
  | _, [] => []
  | fuel + 1, b :: rest =>
    if b < 0x80 then Char.ofNat b :: utf8DecodeIgnoreAux fuel rest
    else
      match utf8Seq b rest with
      | some (k, cp) => Char.ofNat cp :: utf8DecodeIgnoreAux fuel (rest.drop k)
      | none => utf8DecodeIgnoreAux fuel rest

/-- UTF-8 decoding with `errors='ignore'`. -/
def utf8DecodeIgnore (bs : List Nat) : List Char :=
  utf8DecodeIgnoreAux bs.length bs

/-- `decode_base64` (gmail_client.py:523-537): pad, translate the url-safe
alphabet, decode; any failure yields "". -/
def decode_base64 (data : String) : String :=
  let missing := data.length % 4
  let padded := if missing ≠ 0 then data ++ String.mk (List.replicate (4 - missing) '=') else data
  let replaced := padded.data.map (fun c => if c = '-' then '+' else if c = '_' then '/' else c)
  match b64decodeBytes replaced with
  | none => ""
  | some bytes => String.mk (utf8DecodeIgnore bytes)

/-! ## Payload part tree and body extraction — gmail_client.extract_body_content -/

/-- A Gmail message payload node: MIME type, header list, optional body data
(absent modelled as ""), and the `parts` key (`hasParts` records whether the
key is present, as `extract_body_content` tests `"parts" in payload`). -/
inductive Payload where
  | mk (mimeType : String) (headers : List (String × String)) (bodyData : String)
      (hasParts : Bool) (parts : List Payload)

def Payload.mimeType : Payload → String
  | .mk mt _ _ _ _ => mt

def Payload.headers : Payload → List (String × String)
  | .mk _ hs _ _ _ => hs

def Payload.bodyData : Payload → String
  | .mk _ _ bd _ _ => bd

def Payload.hasParts : Payload → Bool
  | .mk _ _ _ hp _ => hp

def Payload.parts : Payload → List Payload
  | .mk _ _ _ _ ps => ps

/-- `process_part` (gmail_client.py:495-511): a plain part appends its decoded
content to the plain accumulator, an HTML part to the HTML accumulator, a
multipart container recurses over its children in order, anything else is
ignored. The pair returned is the (plain, html) contribution of the subtree. -/
def process_part : Payload → String × String
  | .mk mt _ bd _ parts =>
    if mt = "text/plain" then (if bd ≠ "" then decode_base64 bd else "", "")
    else if mt = "text/html" then ("", if bd ≠ "" then decode_base64 bd else "")
    else if pyStartsWith mt "multipart/" then
      let rs := parts.attach.map (fun x => process_part x.1)
      (strConcat (rs.map Prod.fst), strConcat (rs.map Prod.snd))
    else ("", "")
termination_by p => sizeOf p
decreasing_by
  simp_wf
  have := List.sizeOf_lt_of_mem x.2
  omega

/-- `extract_body_content` (gmail_client.py:490-521): walk the top-level
parts when the `parts` key is present, otherwise treat the payload itself as
a single part; both accumulated bodies are stripped at the end. -/
def extract_body_content (payload : Payload) : String × String :=
  let r :=
    if payload.hasParts then
      let rs := payload.parts.map process_part
      (strConcat (rs.map Prod.fst), strConcat (rs.map Prod.snd))
    else process_part payload
  (pyStrip r.1, pyStrip r.2)

/-- The specification's view of one part subtree: the body data of the
plain-text parts, collected in depth-first order (multipart containers
recurse, others are ignored). -/
def dfsPlainData : Payload → List String
  | .mk mt _ bd _ parts =>
    if mt = "text/plain" then [bd]
    else if mt = "text/html" then []
    else if pyStartsWith mt "multipart/" then
      (parts.attach.map (fun x => dfsPlainData x.1)).flatten
    else []
termination_by p => sizeOf p
decreasing_by
  simp_wf
  have := List.sizeOf_lt_of_mem x.2
  omega

/-- Depth-first collection of HTML part contents, mirroring `dfsPlainData`. -/
def dfsHtmlData : Payload → List String
  | .mk mt _ bd _ parts =>
    if mt = "text/plain" then []
    else if mt = "text/html" then [bd]
    else if pyStartsWith mt "multipart/" then
      (parts.attach.map (fun x => dfsHtmlData x.1)).flatten
    else []
termination_by p => sizeOf p
decreasing_by
  simp_wf
  have := List.sizeOf_lt_of_mem x.2
  omega

/-- The specification's plain-body collection for a whole payload, honouring
the top-level `parts`-key branch of `extract_body_content`. -/
def bodyPlainData (p : Payload) : List String :=
  if p.hasParts then (p.parts.map dfsPlainData).flatten else dfsPlainData p

/-- The specification's HTML-body collection for a whole payload. -/
def bodyHtmlData (p : Payload) : List String :=
  if p.hasParts then (p.parts.map dfsHtmlData).flatten else dfsHtmlData p

/-! ## Lemmas: body extraction -/

/-- Structural induction for the part tree. -/
theorem payloadInduction (motive : Payload → Prop)
    (h : ∀ mt hs bd hp parts, (∀ q ∈ parts, motive q) →
      motive (.mk mt hs bd hp parts)) :
    ∀ p, motive p
  | .mk mt hs bd hp parts =>
    h mt hs bd hp parts (fun q hq =>
      have := List.sizeOf_lt_of_mem hq
      payloadInduction motive h q)
termination_by p => sizeOf p
decreasing_by
  simp_wf
  have := List.sizeOf_lt_of_mem hq
  omega

theorem process_part_unfold (mt hs bd hp parts) :
    process_part (.mk mt hs bd hp parts) =
      if mt = "text/plain" then (if bd ≠ "" then decode_base64 bd else "", "")
      else if mt = "text/html" then ("", if bd ≠ "" then decode_base64 bd else "")
      else if pyStartsWith mt "multipart/" then
        (strConcat ((parts.map process_part).map Prod.fst),
         strConcat ((parts.map process_part).map Prod.snd))
      else ("", "") := by
  rw [process_part]
  simp only [List.attach_map_val]

theorem dfsPlainData_unfold (mt hs bd hp parts) :
    dfsPlainData (.mk mt hs bd hp parts) =
      if mt = "text/plain" then [bd]
      else if mt = "text/html" then []
      else if pyStartsWith mt "multipart/" then (parts.map dfsPlainData).flatten
      else [] := by
  rw [dfsPlainData]
  simp only [List.attach_map_val]

theorem dfsHtmlData_unfold (mt hs bd hp parts) :
    dfsHtmlData (.mk mt hs bd hp parts) =
      if mt = "text/plain" then []
      else if mt = "text/html" then [bd]
      else if pyStartsWith mt "multipart/" then (parts.map dfsHtmlData).flatten
      else [] := by
  rw [dfsHtmlData]
  simp only [List.attach_map_val]

theorem strConcat_append (l₁ l₂ : List String) :
    strConcat (l₁ ++ l₂) = strConcat l₁ ++ strConcat l₂ := by
  induction l₁ with
  | nil => simp [strConcat, String.empty_append]
  | cons a t ih => simp [strConcat, ih, String.append_assoc]

theorem strConcat_flatten (g : String → String) (ls : List (List String)) :
    strConcat (ls.flatten.map g) = strConcat (ls.map (fun l => strConcat (l.map g))) := by
  induction ls with
  | nil => rfl
  | cons a t ih =>
    simp only [List.flatten_cons, List.map_append, strConcat_append, List.map_cons, strConcat]
    rw [ih]

theorem decode_base64_empty : decode_base64 "" = "" := by decide

/-- The recursive walker computes, for each subtree, exactly the concatenation
of the decoded plain parts and the decoded HTML parts in depth-first order. -/
theorem process_part_eq_dfs (p : Payload) :
    process_part p =
      (strConcat ((dfsPlainData p).map decode_base64),
       strConcat ((dfsHtmlData p).map decode_base64)) := by
  induction p using payloadInduction with
  | h mt hs bd hp parts ih =>
    rw [process_part_unfold, dfsPlainData_unfold, dfsHtmlData_unfold]
    by_cases h1 : mt = "text/plain"
    · simp only [if_pos h1, List.map_cons, List.map_nil, strConcat]
      by_cases hbd : bd = ""
      · simp [hbd, decode_base64_empty, strConcat]
      · simp [hbd, strConcat, String.append_empty]
    · by_cases h2 : mt = "text/html"
      · simp only [if_neg h1, if_pos h2, List.map_cons, List.map_nil, strConcat]
        by_cases hbd : bd = ""
        · simp [hbd, decode_base64_empty, strConcat]
        · simp [hbd, strConcat, String.append_empty]
      · by_cases h3 : pyStartsWith mt "multipart/"
        · simp only [if_neg h1, if_neg h2, if_pos h3]
          have hmap : parts.map process_part =
              parts.map (fun q => (strConcat ((dfsPlainData q).map decode_base64),
                strConcat ((dfsHtmlData q).map decode_base64))) :=
            List.map_congr_left ih
          rw [hmap, strConcat_flatten, strConcat_flatten]
          simp only [List.map_map]
          rfl
        · simp [if_neg h1, if_neg h2, if_neg h3, strConcat]

/-- The whole-payload collections agree with `extract_body_content` before
stripping. -/
theorem extract_body_content_eq_spec (p : Payload) :
    extract_body_content p =
      (pyStrip (strConcat ((bodyPlainData p).map decode_base64)),
       pyStrip (strConcat ((bodyHtmlData p).map decode_base64))) := by
  by_cases h : p.hasParts
  · have hmap : p.parts.map process_part =
        p.parts.map (fun q => (strConcat ((dfsPlainData q).map decode_base64),
          strConcat ((dfsHtmlData q).map decode_base64))) :=
      List.map_congr_left (fun q _ => process_part_eq_dfs q)
    simp only [extract_body_content, bodyPlainData, bodyHtmlData, h, if_true, hmap,
      strConcat_flatten, List.map_map]
    rfl
  · have h' : p.hasParts = false := by simpa using h
    simp only [extract_body_content, bodyPlainData, bodyHtmlData, h',
      Bool.false_eq_true, if_false]
    rw [process_part_eq_dfs]

/-- The specification's `[html, plain, plain]` example, with base64url bodies
for "<b>Hi</b>", "Hello " and "world " (the first exercising the url-safe
alphabet translation). -/
def examplePayload : Payload :=
  .mk "multipart/alternative" [] "" true [
    .mk "text/html" [] "PGI-SGk8L2I-" false [],
    .mk "text/plain" [] "SGVsbG8g" false [],
    .mk "text/plain" [] "d29ybGQg" false [] ]

/-- A payload whose first plain part has undecodable body data ("a" is one
data character, which base64 rejects even after padding) next to a good part
("b2s=" decodes to "ok"). -/
def partialFailPayload : Payload :=
  .mk "multipart/mixed" [] "" true [
    .mk "text/plain" [] "a" false [],
    .mk "text/plain" [] "b2s=" false [] ]

/-! ## Claim theorem: body extraction (C7) -/

/-- C7. Body extraction: the plain body is the concatenation, in depth-first
order, of the decoded contents of the plain-text parts, and the HTML body
likewise for HTML parts, both trimmed; multipart containers recurse, other
types are ignored. The `[html, plain, plain]` example yields the single HTML
content and the two plain contents concatenated in order; a part whose base64
decode fails contributes empty content without aborting the parse. -/
theorem extract_body_content_spec :
    (∀ p, extract_body_content p =
      (pyStrip (strConcat ((bodyPlainData p).map decode_base64)),
       pyStrip (strConcat ((bodyHtmlData p).map decode_base64)))) ∧
    extract_body_content examplePayload = ("Hello world", "<b>Hi</b>") ∧
    (decode_base64 "a" = "" ∧
      extract_body_content partialFailPayload = ("ok", "")) := by
  refine ⟨extract_body_content_eq_spec, ?_, by decide, ?_⟩
  · show extract_body_content examplePayload = _
    simp only [examplePayload, extract_body_content, Payload.hasParts, Payload.parts,
      List.map_cons, List.map_nil, process_part_unfold]
    decide
  · show extract_body_content partialFailPayload = _
    simp only [partialFailPayload, extract_body_content, Payload.hasParts, Payload.parts,
      List.map_cons, List.map_nil, process_part_unfold]
    decide

/-! ## Message parsing — gmail_client.create_email_from_message

A provider message response: the fields `create_email_from_message` reads,
each with the default its `.get(...)` call supplies for an absent key. The
two standard-library date conversions the parser calls are abstracted as
parameters: `parsedate` stands for `email.utils.parsedate_to_datetime` under
the surrounding try/except (failures are `none`), and `fromtimestampMs`
stands for `datetime.fromtimestamp(n / 1000)` applied to the integer
millisecond value, likewise with caught failures as `none`. -/

structure FullMsg where
  id : String := ""
  threadId : String := ""
  snippet : String := ""
  sizeEstimate : Int := 0
  internalDate : String := ""
  payload : Payload := .mk "" [] "" false []

/-- Lookup in the header dictionary built by
`{header["name"]: header["value"] for header in headers}` followed by
`.get(k, "")`: on duplicate names the last occurrence wins. -/
def headerValue (headers : List (String × String)) (k : String) : String :=
  match headers.reverse.find? (fun h => h.1 = k) with
  | some h => h.2
  | none => ""

/-- Digit run of a Python integer literal: digits with single underscores
allowed between digits. -/
def pyIntDigitsGo (acc : Nat) : List Char → Option Nat
  | [] => some acc
  | '_' :: c :: rest =>
    if c.isDigit then pyIntDigitsGo (acc * 10 + (c.toNat - 48)) rest else none
  | ['_'] => none
  | c :: rest =>
    if c.isDigit then pyIntDigitsGo (acc * 10 + (c.toNat - 48)) rest else none

def pyIntDigits : List Char → Option Nat
  | c :: rest => if c.isDigit then pyIntDigitsGo (c.toNat - 48) rest else none
  | [] => none

/-- Python `int(s)` on a string: strip whitespace, optional sign, digit run;
anything else raises `ValueError`, modelled as `none`. -/
def pyIntParse (s : String) : Option Int :=
  match pyStripList s.data with
  | '-' :: rest => (pyIntDigits rest).map (fun n => -(n : Int))
  | '+' :: rest => (pyIntDigits rest).map (fun n => (n : Int))
  | cs => (pyIntDigits cs).map (fun n => (n : Int))

/-- `parse_date` (gmail_client.py:466-476): empty input and parse failures
give an absent date. -/
def parse_date (parsedate : String → Option Int) (date_string : String) : Option Int :=
  if date_string = "" then none else parsedate date_string

/-- `parse_internal_date` (gmail_client.py:478-488): empty input, a
non-integer string, and conversion failures give an absent date. -/
def parse_internal_date (fromtimestampMs : Int → Option Int)
    (internal_date : String) : Option Int :=
  if internal_date = "" then none
  else
    match pyIntParse internal_date with
    | some n => fromtimestampMs n
    | none => none

/-- `create_email_from_message` (gmail_client.py:206-248): build an `Email`
from a provider response; absent or unparsable fields become empty strings,
empty lists or absent dates, never errors. -/
def create_email_from_message (parsedate : String → Option Int)
    (fromtimestampMs : Int → Option Int) (full_msg : FullMsg) : Email :=
  let headers := full_msg.payload.headers
  let fromPair := parse_email_address (headerValue headers "From")
  let body := extract_body_content full_msg.payload
  { id := full_msg.id
    thread_id := full_msg.threadId
    snippet := full_msg.snippet
    size_estimate := full_msg.sizeEstimate
    internal_date := full_msg.internalDate
    headers := headers
    subject := headerValue headers "Subject"
    from_email := headerValue headers "From"
    reply_to := headerValue headers "Reply-To"
    date := headerValue headers "Date"
    message_id := headerValue headers "Message-ID"
    from_name := fromPair.1
    from_address := fromPair.2
    «to» := parse_email_list (headerValue headers "To")
    cc := parse_email_list (headerValue headers "Cc")
    bcc := parse_email_list (headerValue headers "Bcc")
    sent_date := parse_date parsedate (headerValue headers "Date")
    received_date := parse_internal_date fromtimestampMs full_msg.internalDate
    body_text := body.1
    body_html := body.2 }

/-! ## Draft editing — gmail_client.edit_existing_draft

The two provider round trips (drafts.get and drafts.update) are external;
the fetch outcome is an input (`none` for the caught fetch failures), and the
embedding returns the update request the function would send. -/

/-- The message `edit_existing_draft` builds for the update call: all five
headers are set unconditionally (empty lists join to ""), threading headers
only when the draft's own message id is nonempty. -/
structure UpdateMsg where
  body : String
  subject : String
  «to» : String
  cc : String
  bcc : String
  in_reply_to : Option String
  references : Option String
  thread_id : String
deriving DecidableEq, Repr

/-- `edit_existing_draft` (gmail_client.py:333-407) up to the update call:
fetch the draft, parse it, apply the field-level patch (an empty override
keeps the existing value), re-derive threading headers from the draft's own
message id. -/
def edit_existing_draft (parsedate : String → Option Int)
    (fromtimestampMs : Int → Option Int) (fetched : Option FullMsg)
    (new_body new_subject : String) (new_to new_cc new_bcc : List String) :
    Except String UpdateMsg :=
  match fetched with
  | none => .error "Error editing draft: Draft not found or access denied"
  | some draftMsg =>
    let draft_obj := create_email_from_message parsedate fromtimestampMs draftMsg
    .ok {
      body := if new_body ≠ "" then new_body else draft_obj.body_text
      subject := if new_subject ≠ "" then new_subject else draft_obj.subject
      «to» := if new_to ≠ [] then String.intercalate ", " new_to
              else String.intercalate ", " draft_obj.«to»
      cc := if new_cc ≠ [] then String.intercalate ", " new_cc
            else String.intercalate ", " draft_obj.cc
      bcc := if new_bcc ≠ [] then String.intercalate ", " new_bcc
             else String.intercalate ", " draft_obj.bcc
      in_reply_to := if draft_obj.message_id ≠ "" then some draft_obj.message_id else none
      references := if draft_obj.message_id ≠ "" then some draft_obj.message_id else none
      thread_id := draft_obj.thread_id }

/-! ## Claim theorems: parser totality on missing headers (C4) -/

/-- Counterexample to C4 as stated: a raw message with no header block but a
provider-internal timestamp has a present received date (the received date is
parsed from the top-level `internalDate`, which is outside the header block),
so "absent sent/received dates" fails for `received`. -/
theorem create_email_no_headers_received_present :
    ({ internalDate := "86400000" : FullMsg }).payload.headers = [] ∧
      (create_email_from_message (fun _ => none) (fun n => some n)
        { internalDate := "86400000" }).received_date = some 86400000 :=
  ⟨rfl, by decide⟩

/-- C4 (amended). Parser behaviour on a payload with no header block: subject,
from (raw, name and address) and the recipient lists are empty and the sent
date is absent; the received date is independent of the header block and is
absent when the provider-internal timestamp is itself absent. (Totality is
inherent: the embedding is a total function, mirroring the source's use of
defaulted lookups and caught conversions.) -/
theorem create_email_no_header_block (parsedate : String → Option Int)
    (fromtimestampMs : Int → Option Int) (msg : FullMsg)
    (h : msg.payload.headers = []) :
    (create_email_from_message parsedate fromtimestampMs msg).subject = "" ∧
    (create_email_from_message parsedate fromtimestampMs msg).from_email = "" ∧
    (create_email_from_message parsedate fromtimestampMs msg).from_name = "" ∧
    (create_email_from_message parsedate fromtimestampMs msg).from_address = "" ∧
    (create_email_from_message parsedate fromtimestampMs msg).«to» = [] ∧
    (create_email_from_message parsedate fromtimestampMs msg).cc = [] ∧
    (create_email_from_message parsedate fromtimestampMs msg).bcc = [] ∧
    (create_email_from_message parsedate fromtimestampMs msg).sent_date = none ∧
    (msg.internalDate = "" →
      (create_email_from_message parsedate fromtimestampMs msg).received_date = none) := by
  have hv : ∀ k, headerValue msg.payload.headers k = "" := by
    intro k
    rw [h]
    rfl
  refine ⟨?_, ?_, ?_, ?_, ?_, ?_, ?_, ?_, ?_⟩ <;>
    [skip; skip; skip; skip; skip; skip; skip; skip;
     exact fun h2 => by simp [create_email_from_message, parse_internal_date, h2]] <;>
    simp [create_email_from_message, hv, parse_email_address, parse_email_list,
      parse_date, parse_internal_date]

/-- Witness for the amended C4 at the all-defaults message. -/
theorem create_email_no_header_block_witness :
    ({ : FullMsg }).payload.headers = [] ∧
      (create_email_from_message (fun _ => none) (fun _ => none) {}).subject = "" ∧
      (create_email_from_message (fun _ => none) (fun _ => none) {}).«to» = [] ∧
      (create_email_from_message (fun _ => none) (fun _ => none) {}).sent_date = none ∧
      (create_email_from_message (fun _ => none) (fun _ => none) {}).received_date = none := by
  have h := create_email_no_header_block (fun _ => none) (fun _ => none) {} rfl
  exact ⟨rfl, h.1, h.2.2.2.2.1, h.2.2.2.2.2.2.2.1, h.2.2.2.2.2.2.2.2 rfl⟩

/-! ## Claim theorem: draft edit round-trip identity (C6) -/

/-- C6. Draft edit round-trip: with every override field empty, the update
message keeps the fetched draft's parsed body, subject, to, cc and bcc
unchanged, with threading headers re-derived from the draft's own message id
and the draft's own thread id. -/
theorem edit_existing_draft_identity (parsedate : String → Option Int)
    (fromtimestampMs : Int → Option Int) (draftMsg : FullMsg) :
    edit_existing_draft parsedate fromtimestampMs (some draftMsg) "" "" [] [] [] =
      .ok { body := (create_email_from_message parsedate fromtimestampMs draftMsg).body_text
            subject := (create_email_from_message parsedate fromtimestampMs draftMsg).subject
            «to» := String.intercalate ", "
              (create_email_from_message parsedate fromtimestampMs draftMsg).«to»
            cc := String.intercalate ", "
              (create_email_from_message parsedate fromtimestampMs draftMsg).cc
            bcc := String.intercalate ", "
              (create_email_from_message parsedate fromtimestampMs draftMsg).bcc
            in_reply_to :=
              if (create_email_from_message parsedate fromtimestampMs draftMsg).message_id ≠ ""
              then some (create_email_from_message parsedate fromtimestampMs draftMsg).message_id
              else none
            references :=
              if (create_email_from_message parsedate fromtimestampMs draftMsg).message_id ≠ ""
              then some (create_email_from_message parsedate fromtimestampMs draftMsg).message_id
              else none
            thread_id :=
              (create_email_from_message parsedate fromtimestampMs draftMsg).thread_id } := by
  simp [edit_existing_draft]

/-! ## Triage-and-draft orchestrator — backend/llm/tools.py

`create_drafts_for_unread_emails` (tools.py:57-148). The external
collaborators are inputs: `fetchEmail` stands for
`fetch_email_by_msg_id(id)[0]`, `classifierIds` for the id list obtained from
the classifier response via `ast.literal_eval`, `draftFor` for the generator's
draft text per message, `createDraft` for the outcome of
`create_draft_from_email` (which catches its own exceptions and returns a
string — a draft id or an error message — or Python `False`), and `markAck`
for the mark-processed acknowledgement. -/

/-- What `create_draft_from_email` can return to the orchestrator: a string
(draft id, or its no-recipients error message) or Python `False` from its
catch-all handlers. -/
inductive PyDraftRet where
  | str (v : String)
  | boolFalse
deriving DecidableEq, Repr

/-- One value of the orchestrator's `emails_dict`: the summary fields built at
tools.py:81-95 (kept as the fetched `Email`), the draft text, the caller's
per-message instructions, and the keys added during the loop (`draft_id`,
`ready_to_send`), absent until their assignment runs. -/
structure EmailEntry where
  info : Email
  draft : String := ""
  draftSpecs : String
  draft_id : Option PyDraftRet := none
  ready_to_send : Option Bool := none
deriving DecidableEq, Repr

/-- Keys of a Python dict modelled as an insertion-ordered association list. -/
def dictKeys (d : List (String × EmailEntry)) : List String :=
  d.map Prod.fst

/-- `d[k]` as an option (`none` is Python's `KeyError`). -/
def dictFind (d : List (String × EmailEntry)) (k : String) : Option EmailEntry :=
  (d.find? (fun p => p.1 = k)).map Prod.snd

/-- In-place update of the entry at `k`. -/
def dictUpdate (d : List (String × EmailEntry)) (k : String)
    (f : EmailEntry → EmailEntry) : List (String × EmailEntry) :=
  d.map (fun p => if p.1 = k then (p.1, f p.2) else p)

/-- Modelled from the spec: `mark_as_read` is called by the orchestrator
(tools.py:145) and by test_unread_emails.py, but no such method is defined
anywhere in the repository's `GmailClient`. Specification §6 lists the
operation as the external provider call `mark_processed(id) -> ack`, and §5
fixes the collaborator-call convention (synchronous, success-with-value or
failure-with-kind, never raising) that every other provider method of the
client follows by catching `HttpError` and returning a default; the call is
therefore modelled as an abstract acknowledgement whose boolean result the
orchestrator ignores. -/
def mark_as_read (ack : String → Bool) (msg_id : String) : Bool :=
  ack msg_id

/-- The `for email_id in email_ids_from_llm` loop of
`create_drafts_for_unread_emails` (tools.py:120-145): look the id up in the
batch dict (a missing key raises `KeyError`, modelled as the error result),
record the generated draft, the create-draft outcome (whatever it is) and the
default `ready_to_send`, invoke mark-processed ignoring its ack, continue. -/
def ocLoop (draftFor : String → String) (createDraft : String → PyDraftRet)
    (markAck : String → Bool) :
    List String → List (String × EmailEntry) → Except String (List (String × EmailEntry))
  | [], d => .ok d
  | i :: rest, d =>
    match dictFind d i with
    | none => .error ("KeyError: " ++ i)
    | some _ =>
      let d1 := dictUpdate d i (fun e =>
        { e with draft := draftFor i, draft_id := some (createDraft i),
                 ready_to_send := some false })
      let _ := mark_as_read markAck i
      ocLoop draftFor createDraft markAck rest d1

/-- `create_drafts_for_unread_emails` (tools.py:57-148): build the batch dict
from the caller's id → instructions mapping (fetching each message), then run
the generation loop over the classifier's id list and return the dict. -/
def create_drafts_for_unread_emails (fetchEmail : String → Email)
    (classifierIds : List String) (draftFor : String → String)
    (createDraft : String → PyDraftRet) (markAck : String → Bool)
    (email_info_dict : List (String × String)) :
    Except String (List (String × EmailEntry)) :=
  let emails_dict := email_info_dict.map (fun p =>
    (p.1, { info := fetchEmail p.1, draft := "", draftSpecs := p.2 : EmailEntry }))
  ocLoop draftFor createDraft markAck classifierIds emails_dict

/-! ## Lemmas: orchestrator dictionary -/

theorem dictKeys_update (d : List (String × EmailEntry)) (k : String)
    (f : EmailEntry → EmailEntry) : dictKeys (dictUpdate d k f) = dictKeys d := by
  induction d with
  | nil => rfl
  | cons p t ih =>
    simp only [dictUpdate, dictKeys, List.map_cons] at *
    by_cases h : p.1 = k
    · simp [h, ih]
    · simp [h, ih]

theorem dictFind_update_self (d : List (String × EmailEntry)) (k : String)
    (f : EmailEntry → EmailEntry) :
    dictFind (dictUpdate d k f) k = (dictFind d k).map f := by
  induction d with
  | nil => rfl
  | cons p t ih =>
    simp only [dictUpdate, List.map_cons, dictFind]
    by_cases h : p.1 = k
    · rw [if_pos h]
      rw [List.find?_cons_of_pos _ (by simpa using h),
        List.find?_cons_of_pos _ (by simpa using h)]
      simp
    · rw [if_neg h]
      rw [List.find?_cons_of_neg _ (by simpa using h),
        List.find?_cons_of_neg _ (by simpa using h)]
      exact ih

theorem dictFind_update_other (d : List (String × EmailEntry)) (k k' : String)
    (f : EmailEntry → EmailEntry) (hne : k' ≠ k) :
    dictFind (dictUpdate d k f) k' = dictFind d k' := by
  induction d with
  | nil => rfl
  | cons p t ih =>
    simp only [dictUpdate, List.map_cons, dictFind]
    by_cases h2 : p.1 = k'
    · have hpk : ¬ p.1 = k := fun hk => hne (h2 ▸ hk)
      rw [if_neg hpk]
      rw [List.find?_cons_of_pos _ (by simpa using h2),
        List.find?_cons_of_pos _ (by simpa using h2)]
    · by_cases h : p.1 = k
      · rw [if_pos h]
        rw [List.find?_cons_of_neg _ (by simpa using h2),
          List.find?_cons_of_neg _ (by simpa using h2)]
        exact ih
      · rw [if_neg h]
        rw [List.find?_cons_of_neg _ (by simpa using h2),
          List.find?_cons_of_neg _ (by simpa using h2)]
        exact ih

theorem dictFind_eq_none_iff (d : List (String × EmailEntry)) (k : String) :
    dictFind d k = none ↔ k ∉ dictKeys d := by
  induction d with
  | nil => simp [dictFind, dictKeys]
  | cons p t ih =>
    simp only [dictFind, dictKeys, List.map_cons, List.mem_cons]
    by_cases h : p.1 = k
    · rw [List.find?_cons_of_pos _ (by simpa using h)]
      simp [h]
    · rw [List.find?_cons_of_neg _ (by simpa using h)]
      rw [dictFind] at ih
      rw [ih, dictKeys]
      constructor
      · intro hk hor
        rcases hor with hor | hor
        · exact h hor.symm
        · exact hk hor
      · intro hk hmem
        exact hk (Or.inr hmem)

theorem ocLoop_cons (draftFor : String → String) (createDraft : String → PyDraftRet)
    (markAck : String → Bool) (i : String) (rest : List String)
    (d : List (String × EmailEntry)) :
    ocLoop draftFor createDraft markAck (i :: rest) d =
      match dictFind d i with
      | none => .error ("KeyError: " ++ i)
      | some _ => ocLoop draftFor createDraft markAck rest
          (dictUpdate d i (fun e =>
            { e with draft := draftFor i, draft_id := some (createDraft i),
                     ready_to_send := some false })) := rfl

/-- When every classifier id is a key of the dict, the loop completes and
returns the dict with exactly the listed entries rewritten — regardless of
what the create-draft and mark-processed collaborators return. -/
theorem ocLoop_ok (draftFor : String → String) (createDraft : String → PyDraftRet)
    (markAck : String → Bool) :
    ∀ (ids : List String) (d : List (String × EmailEntry)),
      (∀ i ∈ ids, dictFind d i ≠ none) →
      ∃ d', ocLoop draftFor createDraft markAck ids d = .ok d' ∧
        dictKeys d' = dictKeys d ∧
        (∀ k, k ∉ ids → dictFind d' k = dictFind d k) ∧
        (∀ k ∈ ids, dictFind d' k = (dictFind d k).map (fun e =>
          { e with draft := draftFor k, draft_id := some (createDraft k),
                   ready_to_send := some false })) := by
  intro ids
  induction ids with
  | nil =>
    intro d _
    exact ⟨d, rfl, rfl, fun _ _ => rfl, fun k hk => absurd hk (List.not_mem_nil k)⟩
  | cons i rest ih =>
    intro d hall
    have hi : dictFind d i ≠ none := hall i (List.mem_cons_self i rest)
    obtain ⟨e, he⟩ := Option.ne_none_iff_exists'.mp hi
    have hall1 : ∀ j ∈ rest, dictFind (dictUpdate d i (fun e =>
        { e with draft := draftFor i, draft_id := some (createDraft i),
                 ready_to_send := some false })) j ≠ none := by
      intro j hj
      by_cases hji : j = i
      · subst hji
        rw [dictFind_update_self, he]
        simp
      · rw [dictFind_update_other _ _ _ _ hji]
        exact hall j (List.mem_cons_of_mem _ hj)
    obtain ⟨d', h1, h2, h3, h4⟩ := ih _ hall1
    refine ⟨d', ?_, ?_, ?_, ?_⟩
    · rw [ocLoop_cons, he]
      exact h1
    · rw [h2, dictKeys_update]
    · intro k hk
      have hki : k ≠ i := fun hki => hk (hki ▸ List.mem_cons_self i rest)
      have hkr : k ∉ rest := fun hkr => hk (List.mem_cons_of_mem _ hkr)
      rw [h3 k hkr, dictFind_update_other _ _ _ _ hki]
    · intro k hk
      by_cases hkr : k ∈ rest
      · rw [h4 k hkr]
        by_cases hki : k = i
        · subst hki
          rw [dictFind_update_self, Option.map_map]
          have hcomp : ((fun e : EmailEntry =>
              { e with draft := draftFor k, draft_id := some (createDraft k),
                       ready_to_send := some false }) ∘ (fun e : EmailEntry =>
              { e with draft := draftFor k, draft_id := some (createDraft k),
                       ready_to_send := some false })) = (fun e : EmailEntry =>
              { e with draft := draftFor k, draft_id := some (createDraft k),
                       ready_to_send := some false }) := funext fun _ => rfl
          rw [hcomp]
        · rw [dictFind_update_other _ _ _ _ hki]
      · rcases List.mem_cons.mp hk with hki | hki
        · subst hki
          rw [h3 k hkr, dictFind_update_self]
        · exact absurd hki hkr

/-- A dict with distinct keys has exactly one entry for each present key. -/
theorem filter_key_length_one (d : List (String × EmailEntry)) (i : String)
    (hnd : (dictKeys d).Nodup) (hmem : i ∈ dictKeys d) :
    (d.filter (fun p => p.1 = i)).length = 1 := by
  induction d with
  | nil => simp [dictKeys] at hmem
  | cons p t ih =>
    simp only [dictKeys, List.map_cons, List.nodup_cons, List.mem_cons] at hnd hmem
    by_cases h : p.1 = i
    · have hnil : t.filter (fun q => decide (q.1 = i)) = [] := by
        rw [List.filter_eq_nil_iff]
        intro q hq hqi
        simp only [decide_eq_true_eq] at hqi
        have hq1 : q.1 ∈ List.map Prod.fst t := List.mem_map_of_mem Prod.fst hq
        rw [hqi, ← h] at hq1
        exact hnd.1 hq1
      rw [List.filter_cons]
      simp [h, hnil]
    · have hmem' : i ∈ dictKeys t := by
        rcases hmem with hmem | hmem
        · exact absurd hmem.symm h
        · exact hmem
      rw [List.filter_cons]
      simp only [h, decide_False]  -- head not kept
      exact ih hnd.2 hmem'

theorem dictKeys_init (fetchEmail : String → Email) (info : List (String × String)) :
    dictKeys (info.map (fun p =>
      (p.1, { info := fetchEmail p.1, draft := "", draftSpecs := p.2 : EmailEntry }))) =
      info.map Prod.fst := by
  simp only [dictKeys, List.map_map]
  rfl

theorem dictFind_init (fetchEmail : String → Email) (info : List (String × String))
    (k : String) (e : EmailEntry)
    (h : dictFind (info.map (fun p =>
      (p.1, { info := fetchEmail p.1, draft := "", draftSpecs := p.2 : EmailEntry }))) k =
      some e) :
    e.draft_id = none ∧ e.draft = "" ∧ e.ready_to_send = none := by
  unfold dictFind at h
  rw [Option.map_eq_some'] at h
  obtain ⟨a, ha, hae⟩ := h
  have hmem := List.mem_of_find?_eq_some ha
  obtain ⟨p, _, hpe⟩ := List.mem_map.mp hmem
  refine ⟨?_, ?_, ?_⟩ <;> rw [← hae, ← hpe]

/-- When some classifier id is missing from the dict, the loop aborts with the
`KeyError` of the first missing id. -/
theorem ocLoop_error (draftFor : String → String) (createDraft : String → PyDraftRet)
    (markAck : String → Bool) :
    ∀ (ids : List String) (d : List (String × EmailEntry)) (j : String),
      ids.find? (fun i => (dictFind d i).isNone) = some j →
      ocLoop draftFor createDraft markAck ids d = .error ("KeyError: " ++ j) := by
  intro ids
  induction ids with
  | nil =>
    intro d j h
    simp at h
  | cons i rest ih =>
    intro d j h
    by_cases hi : (dictFind d i).isNone
    · rw [@List.find?_cons_of_pos _ (fun i' => (dictFind d i').isNone) i rest hi] at h
      obtain rfl := Option.some.inj h
      rw [ocLoop_cons, Option.isNone_iff_eq_none.mp hi]
    · rw [@List.find?_cons_of_neg _ (fun i' => (dictFind d i').isNone) i rest hi] at h
      have hne : dictFind d i ≠ none := fun hn => hi (by simp [hn])
      obtain ⟨e, he⟩ := Option.ne_none_iff_exists'.mp hne
      rw [ocLoop_cons, he]
      apply ih
      have hfun : (fun i' => (dictFind (dictUpdate d i (fun e =>
          { e with draft := draftFor i, draft_id := some (createDraft i),
                   ready_to_send := some false })) i').isNone) =
          (fun i' => (dictFind d i').isNone) := by
        funext i'
        by_cases hii : i' = i
        · subst hii
          rw [dictFind_update_self, he]
          rfl
        · rw [dictFind_update_other _ _ _ _ hii]
      rw [hfun]
      exact h

/-! ## Claim theorems: orchestrator (C2, C3) -/

/-- C2. Orchestrator failure isolation and outcome mapping: for every batch
whose ids are distinct and every classifier selection drawn from the batch,
the orchestrator completes with an outcome dict — regardless of what the
create-draft and mark-processed collaborators return, so a per-message
failure (an error string or `False` draft id, a negative mark-processed ack)
never aborts the remaining messages — and the dict has exactly one entry per
id passed to generation, carrying that message's outcome as its draft id. -/
theorem create_drafts_outcomes
    (fetchEmail : String → Email) (classifierIds : List String)
    (draftFor : String → String) (createDraft : String → PyDraftRet)
    (markAck : String → Bool) (email_info_dict : List (String × String))
    (hnodup : (email_info_dict.map Prod.fst).Nodup)
    (hsub : ∀ i ∈ classifierIds, i ∈ email_info_dict.map Prod.fst) :
    ∃ d, create_drafts_for_unread_emails fetchEmail classifierIds draftFor
        createDraft markAck email_info_dict = .ok d ∧
      ∀ i ∈ classifierIds,
        (d.filter (fun p => p.1 = i)).length = 1 ∧
        ∃ e, dictFind d i = some e ∧
          e.draft = draftFor i ∧ e.draft_id = some (createDraft i) ∧
          e.ready_to_send = some false := by
  have hkeys := dictKeys_init fetchEmail email_info_dict
  have hall : ∀ i ∈ classifierIds,
      dictFind (email_info_dict.map (fun p =>
        (p.1, { info := fetchEmail p.1, draft := "", draftSpecs := p.2 : EmailEntry }))) i ≠
        none := by
    intro i hi hn
    rw [dictFind_eq_none_iff, hkeys] at hn
    exact hn (hsub i hi)
  obtain ⟨d', h1, h2, h3, h4⟩ :=
    ocLoop_ok draftFor createDraft markAck classifierIds _ hall
  refine ⟨d', h1, ?_⟩
  intro i hi
  constructor
  · apply filter_key_length_one d' i
    · rw [h2, hkeys]
      exact hnodup
    · rw [h2, hkeys]
      exact hsub i hi
  · obtain ⟨e0, he0⟩ := Option.ne_none_iff_exists'.mp (hall i hi)
    have hfind : dictFind d' i = some
        { e0 with draft := draftFor i, draft_id := some (createDraft i),
                  ready_to_send := some false } := by
      rw [h4 i hi, he0]
      rfl
    exact ⟨_, hfind, rfl, rfl, rfl⟩

/-- Witness for C2: a three-message batch, two selected; create-draft fails
(returns `False`) for the first selected message and mark-processed returns a
negative ack for every message, yet both selected messages get their outcome
recorded and the batch completes. -/
theorem create_drafts_outcomes_witness :
    ((([("a", "sa"), ("b", "sb"), ("c", "sc")]).map Prod.fst).Nodup ∧
      (∀ i ∈ ["a", "b"], i ∈ ([("a", "sa"), ("b", "sb"), ("c", "sc")]).map Prod.fst)) ∧
    ∃ d, create_drafts_for_unread_emails (fun _ => {}) ["a", "b"]
        (fun i => "draft for " ++ i)
        (fun i => if i = "a" then PyDraftRet.boolFalse else PyDraftRet.str "draft-id-b")
        (fun _ => false) [("a", "sa"), ("b", "sb"), ("c", "sc")] = .ok d ∧
      ∀ i ∈ ["a", "b"],
        (d.filter (fun p => p.1 = i)).length = 1 ∧
        ∃ e, dictFind d i = some e ∧
          e.draft = "draft for " ++ i ∧
          e.draft_id = some (if i = "a" then PyDraftRet.boolFalse
            else PyDraftRet.str "draft-id-b") ∧
          e.ready_to_send = some false :=
  ⟨⟨by decide, by decide⟩,
   create_drafts_outcomes (fun _ => {}) ["a", "b"] (fun i => "draft for " ++ i)
     (fun i => if i = "a" then PyDraftRet.boolFalse else PyDraftRet.str "draft-id-b")
     (fun _ => false) [("a", "sa"), ("b", "sb"), ("c", "sc")] (by decide) (by decide)⟩

/-- Counterexample to C3 as stated: a classifier output containing an id not
in the batch is not filtered to the intersection — the lookup fails and the
error escapes, aborting the batch (the claim says malformed entries are
filtered out locally and never cause a failure). -/
theorem create_drafts_unknown_id_fails :
    create_drafts_for_unread_emails (fun _ => {}) ["m2"] (fun _ => "")
        (fun _ => PyDraftRet.boolFalse) (fun _ => true) [("m1", "x")] =
      .error "KeyError: m2" := rfl

/-- C3 (amended). The orchestrator applies no filtering to the classifier's
output: it iterates over exactly the returned id list, so the first returned
id missing from the batch aborts the run with a key-lookup error that escapes
to the caller; and when every returned id is in the batch, drafts are
attached exactly to the returned ids — batch messages the classifier did not
return keep an absent draft id and an empty draft. -/
theorem create_drafts_no_filtering
    (fetchEmail : String → Email) (classifierIds : List String)
    (draftFor : String → String) (createDraft : String → PyDraftRet)
    (markAck : String → Bool) (email_info_dict : List (String × String)) :
    (∀ j, classifierIds.find?
        (fun i => decide (i ∉ email_info_dict.map Prod.fst)) = some j →
      create_drafts_for_unread_emails fetchEmail classifierIds draftFor
        createDraft markAck email_info_dict = .error ("KeyError: " ++ j)) ∧
    ((∀ i ∈ classifierIds, i ∈ email_info_dict.map Prod.fst) →
      ∃ d, create_drafts_for_unread_emails fetchEmail classifierIds draftFor
          createDraft markAck email_info_dict = .ok d ∧
        ∀ k, k ∈ email_info_dict.map Prod.fst → k ∉ classifierIds →
          ∃ e, dictFind d k = some e ∧ e.draft_id = none ∧ e.draft = "") := by
  have hkeys := dictKeys_init fetchEmail email_info_dict
  constructor
  · intro j hj
    apply ocLoop_error
    have hfun : (fun i => (dictFind (email_info_dict.map (fun p =>
        (p.1, { info := fetchEmail p.1, draft := "", draftSpecs := p.2 : EmailEntry }))) i).isNone) =
        (fun i => decide (i ∉ email_info_dict.map Prod.fst)) := by
      funext i
      rw [Bool.eq_iff_iff]
      simp only [Option.isNone_iff_eq_none, dictFind_eq_none_iff, hkeys, decide_eq_true_eq]
    rw [hfun]
    exact hj
  · intro hsub
    have hall : ∀ i ∈ classifierIds,
        dictFind (email_info_dict.map (fun p =>
          (p.1, { info := fetchEmail p.1, draft := "", draftSpecs := p.2 : EmailEntry }))) i ≠
          none := by
      intro i hi hn
      rw [dictFind_eq_none_iff, hkeys] at hn
      exact hn (hsub i hi)
    obtain ⟨d', h1, h2, h3, h4⟩ :=
      ocLoop_ok draftFor createDraft markAck classifierIds _ hall
    refine ⟨d', h1, ?_⟩
    intro k hk hknot
    have hne : dictFind (email_info_dict.map (fun p =>
        (p.1, { info := fetchEmail p.1, draft := "", draftSpecs := p.2 : EmailEntry }))) k ≠
        none := by
      rw [ne_eq, dictFind_eq_none_iff, hkeys]
      simpa using hk
    obtain ⟨e0, he0⟩ := Option.ne_none_iff_exists'.mp hne
    have hprops := dictFind_init fetchEmail email_info_dict k e0 he0
    exact ⟨e0, by rw [h3 k hknot]; exact he0, hprops.1, hprops.2.1⟩

/-- Witness for the amended C3: batch `{"m1"}` with classifier output
`["m1", "zz"]` aborts with the key error for "zz", the first id outside the
batch. -/
theorem create_drafts_no_filtering_witness :
    (["m1", "zz"].find? (fun i => decide (i ∉ ([("m1", "x")] :
        List (String × String)).map Prod.fst)) = some "zz") ∧
      create_drafts_for_unread_emails (fun _ => {}) ["m1", "zz"] (fun _ => "")
        (fun _ => PyDraftRet.str "id1") (fun _ => true) [("m1", "x")] =
        .error "KeyError: zz" :=
  ⟨by decide,
   (create_drafts_no_filtering (fun _ => {}) ["m1", "zz"] (fun _ => "")
     (fun _ => PyDraftRet.str "id1") (fun _ => true) [("m1", "x")]).1 "zz" (by decide)⟩
